import Mathlib

/-!
Verification of the TikTok live-stream scraper core

A shallow embedding of `src/tiktok_scraper.py` (class `EnhancedTikTokScraper`):
the deduplication engine (`_is_duplicate_comment`, `_cleanup_old_comments`,
`_is_emoji_only_message`, the comment path of `save_event`), the rate-limit
state manipulated by `create_streamer_client`, and the backoff computation of
`monitor_streamer`.

Timestamps (Python `time.time()` floats) are modelled as rationals.  Python
dictionaries are modelled as insertion-ordered association lists whose update
operation replaces the value of the first matching key in place (as CPython
dicts do) and appends new keys at the end.  The `hashlib.md5(...).hexdigest()`
calls are modelled by a full executable MD5 over the UTF-8 bytes of the input
string.
-/

set_option maxRecDepth 100000

/- Batteries marks the `Rat` arithmetic operations `@[irreducible]`, which
blocks the `decide` evaluator (not the kernel) on concrete rational
computations; restore semireducibility locally so concrete runs of the
embedded code evaluate. -/
attribute [local semireducible] Rat.sub Rat.add Rat.mul Rat.inv Rat.ofScientific

namespace TikTokScraper

/-! ## Python string primitives -/

/-- The code points stripped by Python `str.strip()` with no argument,
i.e. the characters for which `str.isspace()` holds. -/
def pyIsSpace (c : Char) : Bool :=
  let n := c.toNat
  (9 ≤ n && n ≤ 13) || (28 ≤ n && n ≤ 31) || n = 32 || n = 133 || n = 160 ||
  n = 5760 || (8192 ≤ n && n ≤ 8202) || n = 8232 || n = 8233 || n = 8239 ||
  n = 8287 || n = 12288

/-- Python `str.strip()` on a character list: drop whitespace from both ends. -/
def pyStripList (l : List Char) : List Char :=
  ((l.dropWhile pyIsSpace).reverse.dropWhile pyIsSpace).reverse

/-- Python `str.strip()` with no argument. -/
def pyStrip (s : String) : String := ⟨pyStripList s.data⟩

/-- Python `str.lower()`, restricted to the ASCII case mappings.  All cased
characters appearing in the verified inputs are ASCII; non-ASCII characters
(emoji and symbols, which have no case) are returned unchanged. -/
def pyLowerChar (c : Char) : Char :=
  if 65 ≤ c.toNat && c.toNat ≤ 90 then Char.ofNat (c.toNat + 32) else c

/-- Python `str.lower()` (ASCII fragment, see `pyLowerChar`). -/
def pyLower (s : String) : String := ⟨s.data.map pyLowerChar⟩

/-- Python `str.replace(a, b)` for single characters. -/
def pyReplaceChar (a b : Char) (s : String) : String :=
  ⟨s.data.map (fun c => if c = a then b else c)⟩

/-- UTF-8 encoding of one code point (as Python `str.encode` with UTF-8 does). -/
def utf8Char (c : Char) : List Nat :=
  let n := c.toNat
  if n < 128 then [n]
  else if n < 2048 then [192 + n / 64, 128 + n % 64]
  else if n < 65536 then [224 + n / 4096, 128 + (n / 64) % 64, 128 + n % 64]
  else [240 + n / 262144, 128 + (n / 4096) % 64, 128 + (n / 64) % 64, 128 + n % 64]

/-- UTF-8 encoding of a string as a byte list (Python `s.encode` with UTF-8). -/
def utf8 (s : String) : List Nat := (s.data.map utf8Char).flatten

/-! ## MD5 (`hashlib.md5(...).hexdigest()`) -/

/-- 2^32, the word modulus of MD5. -/
def w32 : Nat := 4294967296

/-- Addition modulo 2^32. -/
def add32 (a b : Nat) : Nat := (a + b) % w32

/-- Left rotation of a 32-bit word. -/
def rotl32 (x n : Nat) : Nat := ((x <<< n) + (x >>> (32 - n))) % w32

/-- Bitwise complement of a 32-bit word. -/
def not32 (x : Nat) : Nat := Nat.xor 4294967295 x

/-- The MD5 sine-derived constant table `K`. -/
def md5K : List Nat := [
  3614090360, 3905402710, 606105819, 3250441966, 4118548399, 1200080426, 2821735955, 4249261313,
  1770035416, 2336552879, 4294925233, 2304563134, 1804603682, 4254626195, 2792965006, 1236535329,
  4129170786, 3225465664, 643717713, 3921069994, 3593408605, 38016083, 3634488961, 3889429448,
  568446438, 3275163606, 4107603335, 1163531501, 2850285829, 4243563512, 1735328473, 2368359562,
  4294588738, 2272392833, 1839030562, 4259657740, 2763975236, 1272893353, 4139469664, 3200236656,
  681279174, 3936430074, 3572445317, 76029189, 3654602809, 3873151461, 530742520, 3299628645,
  4096336452, 1126891415, 2878612391, 4237533241, 1700485571, 2399980690, 4293915773, 2240044497,
  1873313359, 4264355552, 2734768916, 1309151649, 4149444226, 3174756917, 718787259, 3951481745]

/-- The MD5 per-round left-rotation amounts `s`. -/
def md5S : List Nat := [
  7, 12, 17, 22, 7, 12, 17, 22, 7, 12, 17, 22, 7, 12, 17, 22,
  5, 9, 14, 20, 5, 9, 14, 20, 5, 9, 14, 20, 5, 9, 14, 20,
  4, 11, 16, 23, 4, 11, 16, 23, 4, 11, 16, 23, 4, 11, 16, 23,
  6, 10, 15, 21, 6, 10, 15, 21, 6, 10, 15, 21, 6, 10, 15, 21]

/-- The MD5 round function and message index for round `i`. -/
def md5FG (i b c d : Nat) : Nat × Nat :=
  if i < 16 then (Nat.lor (Nat.land b c) (Nat.land (not32 b) d), i)
  else if i < 32 then (Nat.lor (Nat.land d b) (Nat.land (not32 d) c), (5 * i + 1) % 16)
  else if i < 48 then (Nat.xor (Nat.xor b c) d, (3 * i + 5) % 16)
  else (Nat.xor c (Nat.lor b (not32 d)), (7 * i) % 16)

/-- Little-endian bytes of a number (`count` bytes). -/
def leBytes : Nat → Nat → List Nat
  | 0, _ => []
  | k + 1, n => n % 256 :: leBytes k (n / 256)

/-- The 16 little-endian 32-bit words of a 64-byte chunk. -/
def leWord (chunk : List Nat) (g : Nat) : Nat :=
  chunk.getD (4 * g) 0 + 256 * chunk.getD (4 * g + 1) 0 +
  65536 * chunk.getD (4 * g + 2) 0 + 16777216 * chunk.getD (4 * g + 3) 0

/-- `fuel` rounds of the MD5 compression loop starting at round `i`. -/
def md5Rounds (chunk : List Nat) : Nat → Nat → Nat × Nat × Nat × Nat → Nat × Nat × Nat × Nat
  | 0, _, st => st
  | fuel + 1, i, (a, b, c, d) =>
    let fg := md5FG i b c d
    let f := add32 (add32 (add32 fg.1 a) (md5K.getD i 0)) (leWord chunk fg.2)
    md5Rounds chunk fuel (i + 1) (d, add32 b (rotl32 f (md5S.getD i 0)), b, c)

/-- Process one 64-byte chunk. -/
def md5Chunk (st : Nat × Nat × Nat × Nat) (chunk : List Nat) : Nat × Nat × Nat × Nat :=
  let r := md5Rounds chunk 64 0 st
  (add32 st.1 r.1, add32 st.2.1 r.2.1, add32 st.2.2.1 r.2.2.1, add32 st.2.2.2 r.2.2.2)

/-- Split a byte list into 64-byte chunks (`fuel` bounds the recursion). -/
def chunks64 : Nat → List Nat → List (List Nat)
  | 0, _ => []
  | _, [] => []
  | fuel + 1, l => l.take 64 :: chunks64 fuel (l.drop 64)

/-- MD5 padding: append `0x80`, zeros to 56 mod 64, then the 64-bit
little-endian bit length. -/
def md5Pad (msg : List Nat) : List Nat :=
  msg ++ [128] ++ List.replicate ((119 - msg.length % 64) % 64) 0 ++
    leBytes 8 (msg.length * 8 % 18446744073709551616)

/-- The 16-byte MD5 digest of a byte list. -/
def md5Bytes (msg : List Nat) : List Nat :=
  let padded := md5Pad msg
  let st := (chunks64 padded.length padded).foldl md5Chunk
    (1732584193, 4023233417, 2562383102, 271733878)
  leBytes 4 st.1 ++ leBytes 4 st.2.1 ++ leBytes 4 st.2.2.1 ++ leBytes 4 st.2.2.2

/-- A lowercase hexadecimal digit. -/
def hexDigit (n : Nat) : Char :=
  if n < 10 then Char.ofNat (48 + n) else Char.ofNat (87 + n)

/-- Lowercase hex of one byte. -/
def hexByte (b : Nat) : List Char := [hexDigit (b / 16), hexDigit (b % 16)]

/-- `hashlib.md5` of the UTF-8 bytes, as a lowercase hex digest. -/
def md5Hex (s : String) : String := ⟨((md5Bytes (utf8 s)).map hexByte).flatten⟩

/-- Sanity anchor: the embedding reproduces the RFC 1321 digest of `abc`. -/
theorem md5Hex_abc : md5Hex "abc" = "900150983cd24fb0d6963f7d28e17f72" := by decide

/-- Sanity anchor: the digest of a key containing 4-byte UTF-8 code points. -/
theorem md5Hex_fire : md5Hex "u1|🔥🔥🔥" = "90ea19cea2e74990df75c734f8be4995" := by
  decide

/-! ## The emoji-only filter (`_is_emoji_only_message`) -/

/-- Membership in the emoji regex character alternatives of
`_is_emoji_only_message`: emoticons, symbols and pictographs, transport and
map symbols, flags, dingbats, enclosed characters, supplemental symbols, and
symbols and pictographs extended-A. -/
def isEmojiChar (c : Char) : Bool :=
  let n := c.toNat
  (0x1F600 ≤ n && n ≤ 0x1F64F) || (0x1F300 ≤ n && n ≤ 0x1F5FF) ||
  (0x1F680 ≤ n && n ≤ 0x1F6FF) || (0x1F1E0 ≤ n && n ≤ 0x1F1FF) ||
  (0x2702 ≤ n && n ≤ 0x27B0) || (0x24C2 ≤ n && n ≤ 0x1F251) ||
  (0x1F900 ≤ n && n ≤ 0x1F9FF) || (0x1FA70 ≤ n && n ≤ 0x1FAFF)

/-- `_is_emoji_only_message`: true when the text is empty after stripping,
or empty after removing the four ASCII whitespace characters, or empty after
additionally deleting every emoji character and stripping. -/
def isEmojiOnlyMessage (text : String) : Bool :=
  if (pyStrip text).data.isEmpty then true
  else
    let textNoSpace := text.data.filter
      (fun c => !(c = ' ' || c = '\n' || c = '\r' || c = '\t'))
    if textNoSpace.isEmpty then true
    else
      let textNoEmoji := textNoSpace.filter (fun c => !isEmojiChar c)
      (pyStripList textNoEmoji).isEmpty

/-! ## Association-list model of Python dictionaries -/

/-- First value stored under key `k` (Python `d[k]` / `k in d`). -/
def alookup {α : Type} (k : String) : List (String × α) → Option α
  | [] => none
  | (k', v) :: t => if k' = k then some v else alookup k t

/-- Python `d[k] = v`: replace the value of the first occurrence of `k` in
place, keeping the insertion position, or append the new key at the end. -/
def ainsert {α : Type} (k : String) (v : α) : List (String × α) → List (String × α)
  | [] => [(k, v)]
  | (k', v') :: t => if k' = k then (k, v) :: t else (k', v') :: ainsert k v t

/-- A per-target deduplication ledger: comment-hash hex string to last-seen
timestamp (`self.recent_comments[username]`). -/
abbrev Ledger := List (String × ℚ)

/-! ## Scraper state and the deduplicator -/

/-- The fields of `EnhancedTikTokScraper` that the comment path touches.
`outputs` models the lines appended to the per-target session files, newest
first; the `Bool` marks a `SYSTEM:` line. -/
structure ScraperState where
  recentComments : List (String × Ledger)
  sessionFiles : List String
  commentsCaptured : Nat
  duplicatesFiltered : Nat
  outputs : List (String × Bool × String)
  deriving Repr, DecidableEq

/-- The initial state of a fresh scraper with no comment history. -/
def initialState : ScraperState := ⟨[], [], 0, 0, []⟩

/-- The ledger of one target (empty when the target has none yet). -/
def ledgerOf (st : ScraperState) (username : String) : Ledger :=
  (alookup username st.recentComments).getD []

/-- Does `a` start with `b`? (Python `str.startswith`.) -/
def startsWithList : List Char → List Char → Bool
  | _, [] => true
  | [], _ :: _ => false
  | a :: as, b :: bs => a = b && startsWithList as bs

/-- Does a comment-hash string start with the first 8 hex characters of
`md5(commenter + "|")`?  This is the grouping test of the rapid-fire strategy
(strategy 3 of `_is_duplicate_comment`). -/
def rapidFireKeyMatch (commenter : String) (hashVal : String) : Bool :=
  startsWithList hashVal.data ((md5Hex (commenter ++ "|")).data.take 8)

/-- The exact-repeat key hash of strategy 1:
`hashlib.md5(f"{commenter}|{comment.strip()}".encode()).hexdigest()`. -/
def exactHash (commenter comment : String) : String :=
  md5Hex (commenter ++ "|" ++ pyStrip comment)

/-- The near-duplicate key hash of strategy 2, where `nfc` stands for
`unicodedata.normalize` with form NFC (passed as a parameter; on the concrete
inputs below every string is already in NFC form and `nfc` is the identity):
`hashlib.md5(f"{commenter}|{nfc(comment.lower().strip())}".encode()).hexdigest()`. -/
def similarityHash (nfc : String → String) (commenter comment : String) : String :=
  md5Hex (commenter ++ "|" ++ nfc (pyStrip (pyLower comment)))

/-- `_cleanup_old_comments`: delete ledger entries with a timestamp older
than one hour; then, if more than 1000 entries remain, keep only the first
500 of the entries stably sorted by timestamp in descending order
(`dict(sorted(items, key=lambda x: x[1], reverse=True)[:500])`). -/
def purgeOld (l : Ledger) (now : ℚ) : Ledger :=
  l.filter (fun p => !(p.2 < now - 3600))

/-- Stable insertion (descending by timestamp): the new entry goes before
every entry with a strictly smaller or equal-and-later timestamp, matching
the stability of Python `sorted`. -/
def insertDesc (x : String × ℚ) : Ledger → Ledger
  | [] => [x]
  | h :: t => if x.2 < h.2 then h :: insertDesc x t else x :: h :: t

/-- Stable sort by timestamp, descending (Python
`sorted(items, key=lambda x: x[1], reverse=True)`). -/
def sortDesc : Ledger → Ledger
  | [] => []
  | h :: t => insertDesc h (sortDesc t)

/-- `_cleanup_old_comments` on one ledger. -/
def cleanupOldComments (l : Ledger) (now : ℚ) : Ledger :=
  let purged := purgeOld l now
  if 1000 < purged.length then (sortDesc purged).take 500 else purged

/-- The ledger that strategy-recording leaves before cleanup: both the exact
and the near-duplicate hash stored at `now`. -/
def recordedLedger (nfc : String → String) (l : Ledger)
    (commenter comment : String) (now : ℚ) : Ledger :=
  ainsert (similarityHash nfc commenter comment) now
    (ainsert (exactHash commenter comment) now l)

/-- Strategy 1 of `_is_duplicate_comment`: the exact key was seen less than
30 seconds ago in this ledger. -/
def exactRepeatHit (ledger : Ledger) (commenter comment : String) (now : ℚ) : Bool :=
  match alookup (exactHash commenter comment) ledger with
  | some lastSeen => decide (now - lastSeen < 30)
  | none => false

/-- Strategy 2 of `_is_duplicate_comment`: the normalized key was seen less
than 10 seconds ago in this ledger. -/
def nearDuplicateHit (nfc : String → String) (ledger : Ledger)
    (commenter comment : String) (now : ℚ) : Bool :=
  match alookup (similarityHash nfc commenter comment) ledger with
  | some lastSeen => decide (now - lastSeen < 10)
  | none => false

/-- Strategy 3 of `_is_duplicate_comment`: at least 3 ledger entries pass the
rapid-fire key test and lie within the last 5 seconds. -/
def rapidFireHit (ledger : Ledger) (commenter : String) (now : ℚ) : Bool :=
  decide (3 ≤ (ledger.filter
    (fun p => rapidFireKeyMatch commenter p.1 && decide (now - p.2 < 5))).length)

/-- `_is_duplicate_comment(username, commenter, comment, current_time)`:
returns the suppression verdict and the updated state.  The three strategies
are evaluated in order and the first hit suppresses.  Only a non-suppressed
event records its two key hashes and triggers `_cleanup_old_comments`.
In every case the target's ledger entry is (re)installed in the state, as
the source initializes `self.recent_comments[username]` up front. -/
def isDuplicateComment (nfc : String → String) (st : ScraperState)
    (username commenter comment : String) (now : ℚ) : Bool × ScraperState :=
  let ledger := ledgerOf st username
  let writeback := fun (l : Ledger) =>
    { st with recentComments := ainsert username l st.recentComments }
  if exactRepeatHit ledger commenter comment now then (true, writeback ledger)
  else if nearDuplicateHit nfc ledger commenter comment now then (true, writeback ledger)
  else if rapidFireHit ledger commenter now then (true, writeback ledger)
  else
    (false, writeback (cleanupOldComments
      (recordedLedger nfc ledger commenter comment now) now))

/-- The session-file creation step of `save_event`: on the first write for a
target, open the file and write the `SYSTEM: Connected ...` header. -/
def ensureSessionFile (st : ScraperState) (username : String) : ScraperState :=
  if username ∈ st.sessionFiles then st
  else
    { st with
      sessionFiles := username :: st.sessionFiles
      outputs := (username, true, "Connected to @" ++ username ++ "\x27s live stream")
        :: st.outputs }

/-- `clean_content`: replace newlines by spaces and strip. -/
def cleanContent (content : String) : String :=
  pyStrip (pyReplaceChar '\r' ' ' (pyReplaceChar '\n' ' ' content))

/-- `save_event(username, event_type, commenter, content)` at time `now`.
For comments, the duplicate check runs (and records) first, then the
emoji-only filter; both suppressions increment `duplicates_filtered` and
write nothing.  A surviving comment is appended to the session file and
increments `comments_captured`; a system event is appended with a `SYSTEM:`
prefix; other event types only ensure the session file exists. -/
def saveEvent (nfc : String → String) (st : ScraperState)
    (username eventType commenter content : String) (now : ℚ) : ScraperState :=
  if eventType = "comment" then
    let dup := isDuplicateComment nfc st username commenter content now
    if dup.1 then
      { dup.2 with duplicatesFiltered := dup.2.duplicatesFiltered + 1 }
    else if isEmojiOnlyMessage content then
      { dup.2 with duplicatesFiltered := dup.2.duplicatesFiltered + 1 }
    else
      let st2 := ensureSessionFile dup.2 username
      { st2 with
        outputs := (username, false, cleanContent content) :: st2.outputs
        commentsCaptured := st2.commentsCaptured + 1 }
  else if eventType = "system" then
    let st2 := ensureSessionFile st username
    { st2 with
      outputs := (username, true, cleanContent content) :: st2.outputs }
  else st

/-- Fold a list of `(comment text, time)` events from one author through
`save_event` for one target. -/
def runComments (nfc : String → String) (st : ScraperState)
    (username commenter : String) (events : List (String × ℚ)) : ScraperState :=
  events.foldl (fun s e => saveEvent nfc s username "comment" commenter e.1 e.2) st

/-! ## Rate limiting and the connection path (`create_streamer_client`) -/

/-- `RateLimitConfig` with its default field values. -/
structure RateLimitConfig where
  baseDelay : ℚ := 15
  maxDelay : ℚ := 1800
  rateLimitCooldown : ℚ := 3600
  globalRateLimitDuration : ℚ := 1800
  perStreamerRateLimit : ℚ := 3600
  maxConcurrentConnections : Nat := 2
  minConnectionInterval : ℚ := 5
  preConnectionDelayLo : ℚ := 2
  preConnectionDelayHi : ℚ := 5
  connectionTimeout : ℚ := 45
  retryAttempts : Nat := 3
  backoffMultiplier : ℚ := 2
  jitterLo : ℚ := 0.8
  jitterHi : ℚ := 1.2
  deriving Repr, DecidableEq

/-- The configuration the scraper runs with when `config.json` is absent. -/
def defaultConfig : RateLimitConfig := {}

/-- The rate-limit fields of the scraper: `self.global_rate_limit_until`
and `self.streamer_rate_limits`. -/
structure RateLimitState where
  globalRateLimitUntil : ℚ
  streamerRateLimits : List (String × ℚ)
  deriving Repr, DecidableEq

/-- The global rate limit check of `create_streamer_client`:
`current_time < self.global_rate_limit_until`. -/
def isGloballyLimited (rl : RateLimitState) (now : ℚ) : Bool :=
  decide (now < rl.globalRateLimitUntil)

/-- The per-streamer rate limit check of `create_streamer_client`:
`username in self.streamer_rate_limits and current_time < self.streamer_rate_limits[username]`. -/
def isTargetLimited (rl : RateLimitState) (username : String) (now : ℚ) : Bool :=
  match alookup username rl.streamerRateLimits with
  | some deadline => decide (now < deadline)
  | none => false

/-- The rate-limit recording of `create_streamer_client` on a detected
rate-limit error (lines 518–519 of the source): plain assignments
`self.global_rate_limit_until = current_time + global_rate_limit_duration`
and `self.streamer_rate_limits[username] = current_time + per_streamer_rate_limit`. -/
def recordRateLimit (rl : RateLimitState) (username : String)
    (now globalDuration perTargetDuration : ℚ) : RateLimitState :=
  { globalRateLimitUntil := now + globalDuration
    streamerRateLimits :=
      ainsert username (now + perTargetDuration) rl.streamerRateLimits }

/-- The operation the specification describes instead: deadlines move to the
maximum of the existing deadline and the new one. -/
def recordRateLimitSpec (rl : RateLimitState) (username : String)
    (now globalDuration perTargetDuration : ℚ) : RateLimitState :=
  { globalRateLimitUntil := max rl.globalRateLimitUntil (now + globalDuration)
    streamerRateLimits :=
      ainsert username
        (max ((alookup username rl.streamerRateLimits).getD (now + perTargetDuration))
          (now + perTargetDuration)) rl.streamerRateLimits }

/-- Is `needle` a contiguous substring of `hay`? (Python `in` on strings.) -/
def containsSub (needle : List Char) : List Char → Bool
  | [] => needle.isEmpty
  | c :: t => startsWithList (c :: t) needle || containsSub needle t

/-- The rate-limit indicator substrings checked against the lowercased
error text in `create_streamer_client`. -/
def rateLimitIndicators : List String :=
  ["rate_limit", "rate limit", "too many requests", "429",
   "sign server", "rate_limit_ip_day", "euler", "blocked"]

/-- The orchestrator fields touched by `create_streamer_client`:
the admission-permit pool of `self.connection_semaphore` (available permits),
the rate-limit state, the counters, and `self.last_connection_time`. -/
structure OrchState where
  semAvailable : Nat
  rl : RateLimitState
  connectionAttempts : Nat
  failedConnections : Nat
  rateLimitHits : Nat
  lastConnectionTime : ℚ
  deriving Repr, DecidableEq

/-- The result of asking the external TikTokLive client to start:
either the connect succeeds within the timeout, or an exception with the
given message text is raised. -/
inductive ConnOutcome where
  | success
  | failure (errorMsg : String)
  deriving Repr, DecidableEq

/-- `create_streamer_client(username)`: acquire an admission permit
(`async with self.connection_semaphore`, released on every return path),
count the attempt, refuse if the global or the per-streamer rate limit is
active, otherwise wait out the connection-interval and stealth delays,
stamp `last_connection_time` (`connectTime` models the fresh `time.time()`
of line 482) and drive the external client (`outcome`).  On an error whose
lowercased text contains a rate-limit indicator, count a rate-limit hit and
record both rate-limit windows at `errTime` (the fresh `time.time()` of
line 515).  Returns `(success, is_rate_limited)` and the state. -/
def createStreamerClient (cfg : RateLimitConfig) (st : OrchState) (username : String)
    (now connectTime errTime : ℚ) (outcome : ConnOutcome) : (Bool × Bool) × OrchState :=
  let acq := { st with
    semAvailable := st.semAvailable - 1
    connectionAttempts := st.connectionAttempts + 1 }
  let release := fun (s : OrchState) => { s with semAvailable := s.semAvailable + 1 }
  if isGloballyLimited acq.rl now then ((false, true), release acq)
  else if isTargetLimited acq.rl username now then ((false, true), release acq)
  else
    let stamped := { acq with lastConnectionTime := connectTime }
    match outcome with
    | ConnOutcome.success => ((true, false), release stamped)
    | ConnOutcome.failure msg =>
      let failed := { stamped with failedConnections := stamped.failedConnections + 1 }
      let isRateLimited := rateLimitIndicators.any
        (fun ind => containsSub ind.data (pyLower msg).data)
      if isRateLimited then
        ((false, true), release { failed with
          rateLimitHits := failed.rateLimitHits + 1
          rl := recordRateLimit failed.rl username errTime
            cfg.globalRateLimitDuration cfg.perStreamerRateLimit })
      else ((false, false), release failed)

/-! ## Backoff and the monitoring loop sleeps (`monitor_streamer`) -/

/-- The adaptive retry delay of `monitor_streamer` (lines 599–604):
`min(base_delay * backoff_multiplier ** consecutive_failures, max_delay)`
scaled by the random jitter factor. -/
def nextDelay (cfg : RateLimitConfig) (consecutiveFailures : Nat) (jitter : ℚ) : ℚ :=
  min (cfg.baseDelay * cfg.backoffMultiplier ^ consecutiveFailures) cfg.maxDelay * jitter

/-- The delay the specification describes for `nextDelay`, with explicit
parameters: `min(base * multiplier^consecutiveFailures, cap)` scaled by the
jitter factor. -/
def nextDelaySpec (consecutiveFailures : Nat) (base multiplier cap jitter : ℚ) : ℚ :=
  min (base * multiplier ^ consecutiveFailures) cap * jitter

/-- The sleeps executed by one iteration of the `monitor_streamer` loop
before the connection attempt, in order (lines 598–614): the full jittered
backoff delay when there are consecutive failures, then the rate-limit
cooldown sleep (capped at 300 s per iteration) when at least 3 consecutive
rate limits and cooldown time remains.  Neither sleep re-checks
`self.running` while sleeping. -/
def monitorIterationSleeps (cfg : RateLimitConfig)
    (consecutiveFailures consecutiveRateLimits : Nat)
    (now lastSuccessTime jitter : ℚ) : List ℚ :=
  (if 0 < consecutiveFailures then [nextDelay cfg consecutiveFailures jitter] else []) ++
  (if 3 ≤ consecutiveRateLimits ∧ 0 < cfg.rateLimitCooldown - (now - lastSuccessTime) then
    [min (cfg.rateLimitCooldown - (now - lastSuccessTime)) 300] else [])

/-- The sleep of the connected idle poll, `await asyncio.sleep(10)` of line
633: the cadence at which the loop re-checks the session set and
`self.running` while connected — the bounded polling interval of the
specification. -/
def connectedPollSleep : ℚ := 10

/-- The sleep of the exception handler of the loop (line 651). -/
def errorRetrySleep : ℚ := 60

/-! ## Association-list lemmas -/

theorem alookup_ainsert {α : Type} (k k' : String) (v : α) (l : List (String × α)) :
    alookup k (ainsert k' v l) = if k' = k then some v else alookup k l := by
  induction l with
  | nil => simp [ainsert, alookup]
  | cons h t ih =>
    obtain ⟨a, b⟩ := h
    simp only [ainsert]
    by_cases h1 : a = k'
    · subst h1
      by_cases h2 : a = k <;> simp [alookup, h2]
    · simp only [if_neg h1, alookup]
      by_cases h2 : a = k
      · subst h2
        have h3 : ¬ k' = a := fun hh => h1 hh.symm
        simp [h3]
      · simp [h2, ih]

theorem ainsert_self {α : Type} (k : String) (v : α) :
    ∀ l : List (String × α), alookup k l = some v → ainsert k v l = l := by
  intro l
  induction l with
  | nil => simp [alookup]
  | cons h t ih =>
    obtain ⟨a, b⟩ := h
    by_cases h1 : a = k <;>
      simp_all [ainsert, alookup]

theorem alookup_filter {α : Type} (k : String) (v : α) (p : String × α → Bool)
    (l : List (String × α)) (hl : alookup k l = some v) (hp : p (k, v) = true) :
    alookup k (l.filter p) = some v := by
  induction l with
  | nil => simp [alookup] at hl
  | cons h t ih =>
    obtain ⟨a, b⟩ := h
    by_cases h1 : a = k
    · subst h1
      simp [alookup] at hl
      subst hl
      simp [List.filter, hp, alookup]
    · simp [alookup, h1] at hl
      cases hpc : p (a, b) <;> simp [List.filter, hpc, alookup, h1, ih hl]

/-- `ledgerOf` after installing a ledger for the same target. -/
theorem ledgerOf_writeback (st : ScraperState) (u : String) (l : Ledger) :
    ledgerOf { st with recentComments := ainsert u l st.recentComments } u = l := by
  simp [ledgerOf, alookup_ainsert]

/-- When the target already has a ledger, reinstalling it is the identity on
the whole state. -/
theorem writeback_self (st : ScraperState) (u : String) (l : Ledger)
    (h : alookup u st.recentComments = some l) :
    { st with recentComments := ainsert u l st.recentComments } = st := by
  cases st
  simp [ainsert_self u l _ h]

/-! ## Characterization of `_is_duplicate_comment` -/

/-- The verdict of `_is_duplicate_comment` is exactly the disjunction of the
three strategies, evaluated on the target's current ledger. -/
theorem isDuplicateComment_fst (nfc : String → String) (st : ScraperState)
    (username commenter comment : String) (now : ℚ) :
    (isDuplicateComment nfc st username commenter comment now).1 =
      (exactRepeatHit (ledgerOf st username) commenter comment now ||
       nearDuplicateHit nfc (ledgerOf st username) commenter comment now ||
       rapidFireHit (ledgerOf st username) commenter now) := by
  simp only [isDuplicateComment]
  cases exactRepeatHit (ledgerOf st username) commenter comment now <;>
    cases nearDuplicateHit nfc (ledgerOf st username) commenter comment now <;>
      cases rapidFireHit (ledgerOf st username) commenter now <;> simp

/-- A suppressed event leaves the state unchanged except for reinstalling the
target's ledger. -/
theorem isDuplicateComment_suppressed_snd (nfc : String → String) (st : ScraperState)
    (username commenter comment : String) (now : ℚ)
    (h : (isDuplicateComment nfc st username commenter comment now).1 = true) :
    (isDuplicateComment nfc st username commenter comment now).2 =
      { st with recentComments :=
          ainsert username (ledgerOf st username) st.recentComments } := by
  simp only [isDuplicateComment] at h ⊢
  cases h1 : exactRepeatHit (ledgerOf st username) commenter comment now <;>
    cases h2 : nearDuplicateHit nfc (ledgerOf st username) commenter comment now <;>
      cases h3 : rapidFireHit (ledgerOf st username) commenter now <;>
        simp_all

/-- A non-suppressed event records both key hashes at `now` and cleans up. -/
theorem isDuplicateComment_record_snd (nfc : String → String) (st : ScraperState)
    (username commenter comment : String) (now : ℚ)
    (h : (isDuplicateComment nfc st username commenter comment now).1 = false) :
    (isDuplicateComment nfc st username commenter comment now).2 =
      { st with
        recentComments :=
          ainsert username
            (cleanupOldComments
              (recordedLedger nfc (ledgerOf st username) commenter comment now) now)
            st.recentComments } := by
  simp only [isDuplicateComment] at h ⊢
  cases h1 : exactRepeatHit (ledgerOf st username) commenter comment now <;>
    cases h2 : nearDuplicateHit nfc (ledgerOf st username) commenter comment now <;>
      cases h3 : rapidFireHit (ledgerOf st username) commenter now <;>
        simp_all

/-- Bound on the length growth of an insertion. -/
theorem ainsert_length_le {α : Type} (k : String) (v : α) :
    ∀ l : List (String × α), (ainsert k v l).length ≤ l.length + 1 := by
  intro l
  induction l with
  | nil => simp [ainsert]
  | cons h t ih =>
    obtain ⟨a, b⟩ := h
    by_cases h1 : a = k <;> simp [ainsert, h1] <;> omega

/-- When at most 1000 entries survive the purge, no eviction happens. -/
theorem cleanupOldComments_small (l : Ledger) (now : ℚ)
    (h : (purgeOld l now).length ≤ 1000) :
    cleanupOldComments l now = purgeOld l now := by
  simp only [cleanupOldComments]
  rw [if_neg]
  omega

/-- After a record with at most 998 prior entries, both key hashes map to
`now` in the resulting ledger. -/
theorem alookup_after_record (nfc : String → String) (l : Ledger)
    (commenter comment : String) (now : ℚ) (hlen : l.length ≤ 998) :
    alookup (exactHash commenter comment)
        (cleanupOldComments (recordedLedger nfc l commenter comment now) now) = some now ∧
      alookup (similarityHash nfc commenter comment)
        (cleanupOldComments (recordedLedger nfc l commenter comment now) now) = some now := by
  have hrec : (recordedLedger nfc l commenter comment now).length ≤ 1000 := by
    have h1 := ainsert_length_le (exactHash commenter comment) now l
    have h2 := ainsert_length_le (similarityHash nfc commenter comment) now
      (ainsert (exactHash commenter comment) now l)
    simp only [recordedLedger]
    omega
  have hsmall : (purgeOld (recordedLedger nfc l commenter comment now) now).length ≤ 1000 :=
    le_trans (List.length_filter_le _ _) hrec
  rw [cleanupOldComments_small _ _ hsmall]
  have hkeep : (fun p : String × ℚ => !decide (p.2 < now - 3600))
      ((exactHash commenter comment), now) = true := by
    simp only [Bool.not_eq_true']
    simp only [decide_eq_false_iff_not, not_lt]
    exact sub_le_self now (by norm_num)
  have hex : alookup (exactHash commenter comment)
      (recordedLedger nfc l commenter comment now) = some now := by
    simp only [recordedLedger, alookup_ainsert]
    by_cases hss : similarityHash nfc commenter comment = exactHash commenter comment <;>
      simp [hss]
  have hsim : alookup (similarityHash nfc commenter comment)
      (recordedLedger nfc l commenter comment now) = some now := by
    simp [recordedLedger, alookup_ainsert]
  constructor
  · exact alookup_filter _ _ _ _ hex hkeep
  · exact alookup_filter _ _ _ _ hsim
      (by simpa using hkeep)

/-- None of the three strategies fires on an empty ledger. -/
theorem no_hit_on_empty (nfc : String → String) (commenter comment : String) (now : ℚ) :
    exactRepeatHit [] commenter comment now = false ∧
      nearDuplicateHit nfc [] commenter comment now = false ∧
      rapidFireHit [] commenter now = false := by
  refine ⟨rfl, rfl, ?_⟩
  simp [rapidFireHit]

/-- A suppression verdict forces the target to already have a ledger entry. -/
theorem present_of_suppressed (nfc : String → String) (st : ScraperState)
    (username commenter comment : String) (now : ℚ)
    (h : (isDuplicateComment nfc st username commenter comment now).1 = true) :
    alookup username st.recentComments = some (ledgerOf st username) := by
  cases hu : alookup username st.recentComments with
  | some l => simp [ledgerOf, hu]
  | none =>
    exfalso
    have hl : ledgerOf st username = [] := by simp [ledgerOf, hu]
    rw [isDuplicateComment_fst, hl] at h
    obtain ⟨h1, h2, h3⟩ := no_hit_on_empty nfc commenter comment now
    simp [h1, h2, h3] at h

/-- A suppressed comment event only increments the duplicates counter. -/
theorem saveEvent_suppressed (nfc : String → String) (st : ScraperState)
    (username commenter content : String) (now : ℚ)
    (h : (isDuplicateComment nfc st username commenter content now).1 = true) :
    saveEvent nfc st username "comment" commenter content now =
      { st with duplicatesFiltered := st.duplicatesFiltered + 1 } := by
  have hsnd := isDuplicateComment_suppressed_snd nfc st username commenter content now h
  have hwb := writeback_self st username (ledgerOf st username)
    (present_of_suppressed nfc st username commenter content now h)
  simp only [saveEvent, if_pos rfl]
  rw [show (isDuplicateComment nfc st username commenter content now) =
    (true, (isDuplicateComment nfc st username commenter content now).2) from
    Prod.ext h rfl]
  simp only [hsnd, hwb]
  simp

/-- The first comment event of a target with an empty ledger and substantive
text is recorded and forwarded. -/
theorem saveEvent_fresh (nfc : String → String) (st : ScraperState)
    (username commenter content : String) (now : ℚ)
    (hledger : ledgerOf st username = [])
    (hemoji : isEmojiOnlyMessage content = false) :
    saveEvent nfc st username "comment" commenter content now =
      (fun st2 => { st2 with
          outputs := (username, false, cleanContent content) :: st2.outputs
          commentsCaptured := st2.commentsCaptured + 1 })
        (ensureSessionFile
          { st with
            recentComments :=
              ainsert username
                (cleanupOldComments (recordedLedger nfc [] commenter content now) now)
                st.recentComments }
          username) := by
  have hfst : (isDuplicateComment nfc st username commenter content now).1 = false := by
    rw [isDuplicateComment_fst, hledger]
    obtain ⟨h1, h2, h3⟩ := no_hit_on_empty nfc commenter content now
    simp [h1, h2, h3]
  have hsnd := isDuplicateComment_record_snd nfc st username commenter content now hfst
  rw [hledger] at hsnd
  simp only [saveEvent, if_pos rfl]
  rw [show (isDuplicateComment nfc st username commenter content now) =
    (false, (isDuplicateComment nfc st username commenter content now).2) from
    Prod.ext hfst rfl]
  simp only [hsnd, hemoji]
  simp

/-- The number of comment lines written to the session file of one target. -/
def commentLineCount (st : ScraperState) (u : String) : Nat :=
  st.outputs.countP (fun p => decide (p.1 = u) && !p.2.1)

/-- `ensureSessionFile` does not touch the ledger, the counters, or the
comment lines. -/
theorem ensureSessionFile_fields (st : ScraperState) (u v : String) :
    (ensureSessionFile st u).recentComments = st.recentComments ∧
      (ensureSessionFile st u).commentsCaptured = st.commentsCaptured ∧
      (ensureSessionFile st u).duplicatesFiltered = st.duplicatesFiltered ∧
      commentLineCount (ensureSessionFile st u) v = commentLineCount st v := by
  simp only [ensureSessionFile]
  split <;> simp [commentLineCount]

/-- Strategy 1 fires whenever the exact key is in the ledger within the
30-second window. -/
theorem exactRepeatHit_of_lookup (l : Ledger) (commenter comment : String)
    (now t : ℚ) (hl : alookup (exactHash commenter comment) l = some t)
    (hw : now - t < 30) : exactRepeatHit l commenter comment now = true := by
  simp [exactRepeatHit, hl, hw]

/-- Running a batch of events that all hit the 30-second exact window of a
recorded entry only counts duplicates. -/
theorem runComments_suppressed (nfc : String → String) (u c s0 : String) (t0 : ℚ)
    (rest : List (String × ℚ)) :
    ∀ st : ScraperState,
      alookup (exactHash c s0) (ledgerOf st u) = some t0 →
      (∀ e ∈ rest, pyStrip e.1 = pyStrip s0) →
      (∀ e ∈ rest, e.2 - t0 < 30) →
      runComments nfc st u c rest =
        { st with duplicatesFiltered := st.duplicatesFiltered + rest.length } := by
  induction rest with
  | nil =>
    intro st _ _ _
    simp [runComments]
  | cons e rest ih =>
    intro st hl hstrip hwin
    have hhash : exactHash c e.1 = exactHash c s0 := by
      simp [exactHash, hstrip e (by simp)]
    have hfst : (isDuplicateComment nfc st u c e.1 e.2).1 = true := by
      rw [isDuplicateComment_fst,
        exactRepeatHit_of_lookup _ _ _ _ _ (hhash ▸ hl) (hwin e (by simp))]
      simp
    have hstep := saveEvent_suppressed nfc st u c e.1 e.2 hfst
    have hl' : alookup (exactHash c s0)
        (ledgerOf { st with duplicatesFiltered := st.duplicatesFiltered + 1 } u)
        = some t0 := hl
    show runComments nfc (saveEvent nfc st u "comment" c e.1 e.2) u c rest = _
    rw [hstep, ih _ hl' (fun x hx => hstrip x (by simp [hx]))
      (fun x hx => hwin x (by simp [hx]))]
    cases st
    simp
    omega

/-- C1.  For every target and every sequence of comment events with the same
author and the same verbatim trimmed text, starting from a target with no
ledger, where every later event arrives within 30 seconds of the first and
the text is substantive: the first event alone is forwarded (one comment
line and one `comments_captured` increment) and each of the later events is
suppressed, incrementing `duplicates_filtered` once per event and only for
those events. -/
theorem exact_repeat_window_c1 (nfc : String → String) (st : ScraperState)
    (u c s0 : String) (t0 : ℚ) (rest : List (String × ℚ))
    (hledger : ledgerOf st u = [])
    (hemoji : isEmojiOnlyMessage s0 = false)
    (hstrip : ∀ e ∈ rest, pyStrip e.1 = pyStrip s0)
    (hwin : ∀ e ∈ rest, e.2 - t0 < 30) :
    (runComments nfc st u c ((s0, t0) :: rest)).commentsCaptured
        = st.commentsCaptured + 1 ∧
      (runComments nfc st u c ((s0, t0) :: rest)).duplicatesFiltered
        = st.duplicatesFiltered + rest.length ∧
      commentLineCount (runComments nfc st u c ((s0, t0) :: rest)) u
        = commentLineCount st u + 1 := by
  have hstep := saveEvent_fresh nfc st u c s0 t0 hledger hemoji
  have hrun : runComments nfc st u c ((s0, t0) :: rest) =
      runComments nfc (saveEvent nfc st u "comment" c s0 t0) u c rest := rfl
  set stRec : ScraperState :=
    { st with
      recentComments :=
        ainsert u (cleanupOldComments (recordedLedger nfc [] c s0 t0) t0)
          st.recentComments } with hstRec
  obtain ⟨hf1, hf2, hf3, hf4⟩ := ensureSessionFile_fields stRec u u
  set st1 : ScraperState :=
    (fun st2 => { st2 with
        outputs := (u, false, cleanContent s0) :: st2.outputs
        commentsCaptured := st2.commentsCaptured + 1 })
      (ensureSessionFile stRec u) with hst1
  have hlook : alookup (exactHash c s0) (ledgerOf st1 u) = some t0 := by
    have : ledgerOf st1 u =
        cleanupOldComments (recordedLedger nfc [] c s0 t0) t0 := by
      simp only [hst1, ledgerOf, hf1, hstRec]
      simp [alookup_ainsert]
    rw [this]
    exact (alookup_after_record nfc [] c s0 t0 (by simp)).1
  have hfold := runComments_suppressed nfc u c s0 t0 rest st1 hlook hstrip hwin
  rw [hrun, hstep, hfold]
  refine ⟨?_, ?_, ?_⟩
  · simp [hst1, hf2, hstRec]
  · simp [hst1, hf3, hstRec]
  · simp only [hst1]
    simp only [commentLineCount] at hf4
    simp only [commentLineCount, List.countP_cons]
    have houts : stRec.outputs = st.outputs := by rw [hstRec]
    rw [hf4, houts]
    simp

/-- Witness for C1 at the specification's exact input: author `u1` sends
`hi` 5 times within 2 seconds to target `s`; 1 is forwarded, 4 suppressed. -/
theorem exact_repeat_window_c1_witness :
    (ledgerOf initialState "s" = [] ∧ isEmojiOnlyMessage "hi" = false ∧
      (∀ e ∈ [("hi", (0.5 : ℚ)), ("hi", 1), ("hi", 1.5), ("hi", 2)],
        pyStrip e.1 = pyStrip "hi") ∧
      (∀ e ∈ [("hi", (0.5 : ℚ)), ("hi", 1), ("hi", 1.5), ("hi", 2)], e.2 - 0 < 30)) ∧
    ((runComments (fun s => s) initialState "s" "u1"
          (("hi", 0) :: [("hi", 0.5), ("hi", 1), ("hi", 1.5), ("hi", 2)])).commentsCaptured
        = initialState.commentsCaptured + 1 ∧
      (runComments (fun s => s) initialState "s" "u1"
          (("hi", 0) :: [("hi", 0.5), ("hi", 1), ("hi", 1.5), ("hi", 2)])).duplicatesFiltered
        = initialState.duplicatesFiltered +
            [("hi", (0.5 : ℚ)), ("hi", 1), ("hi", 1.5), ("hi", 2)].length ∧
      commentLineCount (runComments (fun s => s) initialState "s" "u1"
          (("hi", 0) :: [("hi", 0.5), ("hi", 1), ("hi", 1.5), ("hi", 2)])) "s"
        = commentLineCount initialState "s" + 1) :=
  ⟨⟨by decide, by decide, by decide, by decide⟩,
    exact_repeat_window_c1 (fun s => s) initialState "s" "u1" "hi" 0
      [("hi", 0.5), ("hi", 1), ("hi", 1.5), ("hi", 2)]
      (by decide) (by decide) (by decide) (by decide)⟩

/-- C2, counterexample to the claim as stated: after `Hi!!` at `t = 0` and
`hi!!` at `t = 5`, a third `hi!!` arriving 11 seconds after the first is NOT
forwarded — it is suppressed (1 captured, 2 filtered), because the first
event recorded its normalized key, which equals the third event's exact key,
and the exact-repeat window is 30 seconds. -/
theorem near_duplicate_window_c2_counterexample :
    (runComments (fun s => s) initialState "s" "u1"
        [("Hi!!", 0), ("hi!!", 5), ("hi!!", 11)]).commentsCaptured = 1 ∧
      (runComments (fun s => s) initialState "s" "u1"
        [("Hi!!", 0), ("hi!!", 5), ("hi!!", 11)]).duplicatesFiltered = 2 := by
  decide

/-- C2 (amended).  An event whose normalized key is in the target's ledger
with a timestamp less than 10 seconds old is suppressed; in the concrete
scenario, `Hi!!` then `hi!!` within 10 s forwards the first and suppresses
the second; a third identical text 11 s after the first is still suppressed
(the exact-repeat window of 30 s applies through the first event's recorded
normalized key); the third is forwarded once 30 s have passed since the
first. -/
theorem near_duplicate_window_c2 :
    (∀ (nfc : String → String) (st : ScraperState) (u a b : String) (now tA : ℚ),
        alookup (similarityHash nfc a b) (ledgerOf st u) = some tA →
        now - tA < 10 →
        (isDuplicateComment nfc st u a b now).1 = true) ∧
      ((runComments (fun s => s) initialState "s" "u1"
            [("Hi!!", 0), ("hi!!", 5)]).commentsCaptured = 1 ∧
        (runComments (fun s => s) initialState "s" "u1"
            [("Hi!!", 0), ("hi!!", 5)]).duplicatesFiltered = 1) ∧
      (runComments (fun s => s) initialState "s" "u1"
          [("Hi!!", 0), ("hi!!", 5), ("hi!!", 11)]).commentsCaptured = 1 ∧
      (runComments (fun s => s) initialState "s" "u1"
          [("Hi!!", 0), ("hi!!", 5), ("hi!!", 30)]).commentsCaptured = 2 := by
  refine ⟨?_, by decide, by decide, by decide⟩
  intro nfc st u a b now tA hl hw
  rw [isDuplicateComment_fst]
  have h2 : nearDuplicateHit nfc (ledgerOf st u) a b now = true := by
    simp [nearDuplicateHit, hl, hw]
  rw [h2]
  simp

/-- Witness for the quantified part of C2: with the ledger left by `Hi!!`
at `t = 0`, the event `hi!!` at `t = 5` is suppressed. -/
theorem near_duplicate_window_c2_witness :
    (alookup (similarityHash (fun s => s) "u1" "hi!!")
        (ledgerOf (runComments (fun s => s) initialState "s" "u1" [("Hi!!", 0)]) "s")
      = some 0 ∧ (5 : ℚ) - 0 < 10) ∧
    (isDuplicateComment (fun s => s)
        (runComments (fun s => s) initialState "s" "u1" [("Hi!!", 0)])
        "s" "u1" "hi!!" 5).1 = true :=
  ⟨⟨by decide, by decide⟩,
    near_duplicate_window_c2.1 (fun s => s)
      (runComments (fun s => s) initialState "s" "u1" [("Hi!!", 0)])
      "s" "u1" "hi!!" 5 0 (by decide) (by decide)⟩

/-- C3: the code, evaluated at the failing input.  Author `u1` posts the 4
distinct texts `a`, `b`, `c`, `d` at `t = 0, 1, 2, 3` (all within 5 s) on a
fresh target: the specification says the 4th is suppressed, but the code
forwards all 4 and filters none, because the rapid-fire test compares each
stored hash `md5(author + "|" + text)` against the 8-hex-character truncation
of `md5(author + "|")`, and those digests are unrelated — the rapid-fire
count is 0, not 3. -/
theorem rapid_fire_c3_code_bug :
    (runComments (fun s => s) initialState "s" "u1"
        [("a", 0), ("b", 1), ("c", 2), ("d", 3)]).commentsCaptured = 4 ∧
      (runComments (fun s => s) initialState "s" "u1"
        [("a", 0), ("b", 1), ("c", 2), ("d", 3)]).duplicatesFiltered = 0 ∧
      (ledgerOf (runComments (fun s => s) initialState "s" "u1"
          [("a", 0), ("b", 1), ("c", 2)]) "s").length = 3 ∧
      rapidFireHit (ledgerOf (runComments (fun s => s) initialState "s" "u1"
          [("a", 0), ("b", 1), ("c", 2)]) "s") "u1" 3 = false := by
  decide

/-- C4, counterexample to the claim as stated: `recordRateLimit` overwrites
the deadlines instead of taking a maximum.  With an active global window
until `t = 100`, a signal at `now = 0` with duration 50 moves the global
deadline back to 50, not to `max(100, 50) = 100` (the specification's
operation keeps 100): the code can shrink an active window. -/
theorem record_rate_limit_c4_counterexample :
    isGloballyLimited ⟨100, [("a", 100)]⟩ 0 = true ∧
      (recordRateLimit ⟨100, [("a", 100)]⟩ "a" 0 50 50).globalRateLimitUntil = 50 ∧
      ¬ (recordRateLimit ⟨100, [("a", 100)]⟩ "a" 0 50 50).globalRateLimitUntil
          = max (100 : ℚ) (0 + 50) ∧
      (recordRateLimitSpec ⟨100, [("a", 100)]⟩ "a" 0 50 50).globalRateLimitUntil = 100 ∧
      ¬ alookup "a" (recordRateLimit ⟨100, [("a", 100)]⟩ "a" 0 50 50).streamerRateLimits
          = some (max (100 : ℚ) (0 + 50)) := by
  decide

/-- C4 (amended).  `recordRateLimit(id, now, gD, pD)` assigns (not maxes)
`globalDeadline := now + gD` and `perTargetDeadline[id] := now + pD`; under
the code's usage — fixed durations and a non-decreasing clock — a later
signal never shrinks either deadline; both `isGloballyLimited(now)` and
`isTargetLimited(id, now)` become true immediately (durations are positive);
and every other target's per-target deadline is unchanged. -/
theorem record_rate_limit_c4 (rl : RateLimitState) (id id' : String)
    (now now' gD pD : ℚ) (hg : 0 < gD) (hp : 0 < pD) (hm : now ≤ now') :
    (recordRateLimit rl id now gD pD).globalRateLimitUntil = now + gD ∧
      alookup id (recordRateLimit rl id now gD pD).streamerRateLimits = some (now + pD) ∧
      (∀ j, j ≠ id → alookup j (recordRateLimit rl id now gD pD).streamerRateLimits
          = alookup j rl.streamerRateLimits) ∧
      isGloballyLimited (recordRateLimit rl id now gD pD) now = true ∧
      isTargetLimited (recordRateLimit rl id now gD pD) id now = true ∧
      (recordRateLimit rl id now gD pD).globalRateLimitUntil ≤
        (recordRateLimit (recordRateLimit rl id now gD pD) id' now' gD pD).globalRateLimitUntil ∧
      (∃ t', alookup id (recordRateLimit (recordRateLimit rl id now gD pD) id' now' gD pD).streamerRateLimits
          = some t' ∧ now + pD ≤ t') := by
  refine ⟨rfl, ?_, ?_, ?_, ?_, ?_, ?_⟩
  · simp [recordRateLimit, alookup_ainsert]
  · intro j hj
    simp [recordRateLimit, alookup_ainsert, Ne.symm hj]
  · simp [isGloballyLimited, recordRateLimit]
    linarith
  · simp [isTargetLimited, recordRateLimit, alookup_ainsert]
    linarith
  · simp [recordRateLimit]
    linarith
  · by_cases hid : id' = id
    · subst hid
      refine ⟨now' + pD, ?_, by linarith⟩
      simp [recordRateLimit, alookup_ainsert]
    · refine ⟨now + pD, ?_, le_refl _⟩
      simp [recordRateLimit, alookup_ainsert, hid]

/-- Witness for C4 (amended): a signal for target `a` at time 0 with the
default durations, followed by a signal for target `b` at time 1. -/
theorem record_rate_limit_c4_witness :
    ((0 : ℚ) < 1800 ∧ (0 : ℚ) < 3600 ∧ (0 : ℚ) ≤ 1) ∧
      ((recordRateLimit ⟨0, []⟩ "a" 0 1800 3600).globalRateLimitUntil = 0 + 1800 ∧
        alookup "a" (recordRateLimit ⟨0, []⟩ "a" 0 1800 3600).streamerRateLimits
          = some (0 + 3600) ∧
        (∀ j, j ≠ "a" → alookup j (recordRateLimit ⟨0, []⟩ "a" 0 1800 3600).streamerRateLimits
            = alookup j (⟨0, []⟩ : RateLimitState).streamerRateLimits) ∧
        isGloballyLimited (recordRateLimit ⟨0, []⟩ "a" 0 1800 3600) 0 = true ∧
        isTargetLimited (recordRateLimit ⟨0, []⟩ "a" 0 1800 3600) "a" 0 = true ∧
        (recordRateLimit ⟨0, []⟩ "a" 0 1800 3600).globalRateLimitUntil ≤
          (recordRateLimit (recordRateLimit ⟨0, []⟩ "a" 0 1800 3600) "b" 1 1800 3600).globalRateLimitUntil ∧
        (∃ t', alookup "a" (recordRateLimit (recordRateLimit ⟨0, []⟩ "a" 0 1800 3600) "b" 1 1800 3600).streamerRateLimits
            = some t' ∧ (0 : ℚ) + 3600 ≤ t')) :=
  ⟨⟨by decide, by decide, by decide⟩,
    record_rate_limit_c4 ⟨0, []⟩ "a" "b" 0 1 1800 3600
      (by decide) (by decide) (by decide)⟩

/-- C5.  A connection attempt that finds the global or the per-target rate
limit active is refused (`(success, is_rate_limited) = (false, true)`, which
sends the monitoring loop back to waiting), and the admission-permit pool,
the rate-limit state, the failure counters, and the last-connection stamp
are the same before and after the refused attempt. -/
theorem refused_attempt_keeps_permits_c5 (cfg : RateLimitConfig) (st : OrchState)
    (username : String) (now connectTime errTime : ℚ) (outcome : ConnOutcome)
    (hsem : 0 < st.semAvailable)
    (hlim : isGloballyLimited st.rl now = true ∨ isTargetLimited st.rl username now = true) :
    (createStreamerClient cfg st username now connectTime errTime outcome).1 = (false, true) ∧
      (createStreamerClient cfg st username now connectTime errTime outcome).2.semAvailable
        = st.semAvailable ∧
      (createStreamerClient cfg st username now connectTime errTime outcome).2.rl = st.rl ∧
      (createStreamerClient cfg st username now connectTime errTime outcome).2.lastConnectionTime
        = st.lastConnectionTime ∧
      (createStreamerClient cfg st username now connectTime errTime outcome).2.failedConnections
        = st.failedConnections ∧
      (createStreamerClient cfg st username now connectTime errTime outcome).2.rateLimitHits
        = st.rateLimitHits := by
  rcases hlim with hglob | htarg
  · simp [createStreamerClient, hglob]
    omega
  · by_cases hglob : isGloballyLimited st.rl now = true
    · simp [createStreamerClient, hglob]
      omega
    · simp only [Bool.not_eq_true] at hglob
      simp [createStreamerClient, hglob, htarg]
      omega

/-- Witness for C5: target `a` is rate limited until `t = 100`; an attempt at
`t = 0` with 2 free permits is refused and the pool still holds 2 permits. -/
theorem refused_attempt_keeps_permits_c5_witness :
    ((0 : Nat) < 2 ∧ isTargetLimited ⟨0, [("a", 100)]⟩ "a" 0 = true) ∧
      ((createStreamerClient defaultConfig ⟨2, ⟨0, [("a", 100)]⟩, 0, 0, 0, 0⟩ "a"
          0 0 0 ConnOutcome.success).1 = (false, true) ∧
        (createStreamerClient defaultConfig ⟨2, ⟨0, [("a", 100)]⟩, 0, 0, 0, 0⟩ "a"
          0 0 0 ConnOutcome.success).2.semAvailable
          = (⟨2, ⟨0, [("a", 100)]⟩, 0, 0, 0, 0⟩ : OrchState).semAvailable ∧
        (createStreamerClient defaultConfig ⟨2, ⟨0, [("a", 100)]⟩, 0, 0, 0, 0⟩ "a"
          0 0 0 ConnOutcome.success).2.rl
          = (⟨2, ⟨0, [("a", 100)]⟩, 0, 0, 0, 0⟩ : OrchState).rl ∧
        (createStreamerClient defaultConfig ⟨2, ⟨0, [("a", 100)]⟩, 0, 0, 0, 0⟩ "a"
          0 0 0 ConnOutcome.success).2.lastConnectionTime
          = (⟨2, ⟨0, [("a", 100)]⟩, 0, 0, 0, 0⟩ : OrchState).lastConnectionTime ∧
        (createStreamerClient defaultConfig ⟨2, ⟨0, [("a", 100)]⟩, 0, 0, 0, 0⟩ "a"
          0 0 0 ConnOutcome.success).2.failedConnections
          = (⟨2, ⟨0, [("a", 100)]⟩, 0, 0, 0, 0⟩ : OrchState).failedConnections ∧
        (createStreamerClient defaultConfig ⟨2, ⟨0, [("a", 100)]⟩, 0, 0, 0, 0⟩ "a"
          0 0 0 ConnOutcome.success).2.rateLimitHits
          = (⟨2, ⟨0, [("a", 100)]⟩, 0, 0, 0, 0⟩ : OrchState).rateLimitHits) :=
  ⟨⟨by decide, by decide⟩,
    refused_attempt_keeps_permits_c5 defaultConfig ⟨2, ⟨0, [("a", 100)]⟩, 0, 0, 0, 0⟩
      "a" 0 0 0 ConnOutcome.success (by decide) (Or.inr (by decide))⟩

/-- C7.  `nextDelay` equals the specification's formula
`min(base * multiplier^consecutiveFailures, cap)` scaled by the jitter
factor; with the jitter factor in `[0.8, 1.2]`, it is monotonically
non-decreasing in `consecutiveFailures` (at fixed jitter), and once the
exponential term exceeds the cap it lies within `[cap*0.8, cap*1.2]`. -/
theorem next_delay_c7 (cfg : RateLimitConfig) (f f' : Nat) (j : ℚ)
    (hbase : 0 ≤ cfg.baseDelay) (hmult : 1 ≤ cfg.backoffMultiplier)
    (hcap : 0 ≤ cfg.maxDelay) (hjlo : 4/5 ≤ j) (hjhi : j ≤ 6/5) :
    nextDelay cfg f j
        = nextDelaySpec f cfg.baseDelay cfg.backoffMultiplier cfg.maxDelay j ∧
      (f ≤ f' → nextDelay cfg f j ≤ nextDelay cfg f' j) ∧
      (cfg.maxDelay < cfg.baseDelay * cfg.backoffMultiplier ^ f →
        cfg.maxDelay * (4/5) ≤ nextDelay cfg f j ∧
          nextDelay cfg f j ≤ cfg.maxDelay * (6/5)) := by
  have hj0 : 0 ≤ j := le_trans (by norm_num) hjlo
  refine ⟨rfl, ?_, ?_⟩
  · intro hff
    have hpow : cfg.baseDelay * cfg.backoffMultiplier ^ f
        ≤ cfg.baseDelay * cfg.backoffMultiplier ^ f' :=
      mul_le_mul_of_nonneg_left (pow_le_pow_right₀ hmult hff) hbase
    exact mul_le_mul_of_nonneg_right
      (min_le_min hpow (le_refl cfg.maxDelay)) hj0
  · intro hexp
    have hmin : min (cfg.baseDelay * cfg.backoffMultiplier ^ f) cfg.maxDelay
        = cfg.maxDelay := min_eq_right (le_of_lt hexp)
    unfold nextDelay
    rw [hmin]
    exact ⟨mul_le_mul_of_nonneg_left hjlo hcap, mul_le_mul_of_nonneg_left hjhi hcap⟩

/-- Witness for C7 at the default configuration: with 8 consecutive failures
the exponential term `15 * 2^8 = 3840` exceeds the cap 1800, and with jitter
factor 1 the delay equals the spec formula and lies within the cap band. -/
theorem next_delay_c7_witness :
    ((0 : ℚ) ≤ defaultConfig.baseDelay ∧ (1 : ℚ) ≤ defaultConfig.backoffMultiplier ∧
      (0 : ℚ) ≤ defaultConfig.maxDelay ∧ (4 : ℚ)/5 ≤ 1 ∧ (1 : ℚ) ≤ 6/5) ∧
      (nextDelay defaultConfig 8 1
          = nextDelaySpec 8 defaultConfig.baseDelay defaultConfig.backoffMultiplier
              defaultConfig.maxDelay 1 ∧
        ((8 : Nat) ≤ 9 → nextDelay defaultConfig 8 1 ≤ nextDelay defaultConfig 9 1) ∧
        (defaultConfig.maxDelay < defaultConfig.baseDelay * defaultConfig.backoffMultiplier ^ (8 : Nat) →
          defaultConfig.maxDelay * (4/5) ≤ nextDelay defaultConfig 8 1 ∧
            nextDelay defaultConfig 8 1 ≤ defaultConfig.maxDelay * (6/5))) :=
  ⟨⟨by decide, by decide, by decide, by decide, by decide⟩,
    next_delay_c7 defaultConfig 8 9 1
      (by decide) (by decide) (by decide) (by decide) (by decide)⟩

/-! ## Sortedness of the eviction order (for C6) -/

theorem mem_insertDesc (x y : String × ℚ) (l : Ledger) :
    y ∈ insertDesc x l ↔ y = x ∨ y ∈ l := by
  induction l with
  | nil => simp [insertDesc]
  | cons h t ih =>
    simp only [insertDesc]
    split <;> simp [ih] <;> tauto

theorem insertDesc_length (x : String × ℚ) (l : Ledger) :
    (insertDesc x l).length = l.length + 1 := by
  induction l with
  | nil => rfl
  | cons h t ih =>
    simp only [insertDesc]
    split <;> simp [ih]

theorem sortDesc_length (l : Ledger) : (sortDesc l).length = l.length := by
  induction l with
  | nil => rfl
  | cons h t ih => simp [sortDesc, insertDesc_length, ih]

theorem mem_sortDesc (y : String × ℚ) (l : Ledger) : y ∈ sortDesc l ↔ y ∈ l := by
  induction l with
  | nil => simp [sortDesc]
  | cons h t ih => simp [sortDesc, mem_insertDesc, ih]

theorem pairwise_insertDesc (x : String × ℚ) (l : Ledger)
    (h : l.Pairwise (fun a b => b.2 ≤ a.2)) :
    (insertDesc x l).Pairwise (fun a b => b.2 ≤ a.2) := by
  induction l with
  | nil => simp [insertDesc]
  | cons hd t ih =>
    rw [List.pairwise_cons] at h
    obtain ⟨hhd, ht⟩ := h
    simp only [insertDesc]
    split
    · rename_i hlt
      rw [List.pairwise_cons]
      refine ⟨?_, ih ht⟩
      intro y hy
      rw [mem_insertDesc] at hy
      rcases hy with rfl | hy
      · exact le_of_lt hlt
      · exact hhd y hy
    · rename_i hnlt
      push_neg at hnlt
      rw [List.pairwise_cons]
      refine ⟨?_, List.pairwise_cons.mpr ⟨hhd, ht⟩⟩
      intro y hy
      rcases List.mem_cons.mp hy with rfl | hy
      · exact hnlt
      · exact le_trans (hhd y hy) hnlt

theorem pairwise_sortDesc (l : Ledger) :
    (sortDesc l).Pairwise (fun a b => b.2 ≤ a.2) := by
  induction l with
  | nil => simp [sortDesc]
  | cons h t ih => exact pairwise_insertDesc h _ ih

theorem take_drop_le (l : Ledger) (n : Nat)
    (h : l.Pairwise (fun a b => b.2 ≤ a.2)) :
    ∀ p ∈ l.take n, ∀ q ∈ l.drop n, q.2 ≤ p.2 := by
  have hsplit := List.take_append_drop n l
  rw [← hsplit, List.pairwise_append] at h
  exact fun p hp q hq => h.2.2 p hp q hq

/-- The three invariants of `_cleanup_old_comments` on one ledger: no entry
older than one hour survives, at most 1000 entries survive, and when the
purge leaves more than 1000 entries exactly the 500 entries with the most
recent timestamps are retained (each retained timestamp is at least every
evicted one). -/
theorem cleanupOldComments_props (l : Ledger) (now : ℚ) :
    (∀ p ∈ cleanupOldComments l now, ¬ (p.2 < now - 3600)) ∧
      (cleanupOldComments l now).length ≤ 1000 ∧
      (1000 < (purgeOld l now).length →
        (cleanupOldComments l now).length = 500 ∧
          ∀ p ∈ cleanupOldComments l now,
            ∀ q ∈ (sortDesc (purgeOld l now)).drop 500, q.2 ≤ p.2) := by
  refine ⟨?_, ?_, ?_⟩
  · intro p hp
    have hmem : p ∈ purgeOld l now := by
      simp only [cleanupOldComments] at hp
      split at hp
      · exact (mem_sortDesc p _).mp (List.mem_of_mem_take hp)
      · exact hp
    have := List.of_mem_filter hmem
    simpa using this
  · simp only [cleanupOldComments]
    split
    · have h1 : ((sortDesc (purgeOld l now)).take 500).length ≤ 500 := by
        simp [List.length_take]
      omega
    · rename_i hle
      omega
  · intro hbig
    simp only [cleanupOldComments, if_pos hbig]
    refine ⟨?_, ?_⟩
    · rw [List.length_take, sortDesc_length]
      omega
    · intro p hp q hq
      exact take_drop_le _ 500 (pairwise_sortDesc _) p
        ((by rfl : (sortDesc (purgeOld l now)).take 500
          = (sortDesc (purgeOld l now)).take 500) ▸ hp) q hq

/-- C6.  After every deduplicator call that records an event, the target's
ledger has no entry older than one hour relative to the call's timestamp and
never exceeds 1000 entries; whenever the recorded-and-purged ledger exceeds
1000 entries, exactly 500 entries are retained and each retained entry's
timestamp is at least every evicted entry's timestamp. -/
theorem ledger_bounds_c6 (nfc : String → String) (st : ScraperState)
    (username commenter comment : String) (now : ℚ)
    (h : (isDuplicateComment nfc st username commenter comment now).1 = false) :
    (∀ p ∈ ledgerOf (isDuplicateComment nfc st username commenter comment now).2 username,
        ¬ (p.2 < now - 3600)) ∧
      (ledgerOf (isDuplicateComment nfc st username commenter comment now).2 username).length
        ≤ 1000 ∧
      (1000 < (purgeOld (recordedLedger nfc (ledgerOf st username) commenter comment now)
          now).length →
        (ledgerOf (isDuplicateComment nfc st username commenter comment now).2 username).length
            = 500 ∧
          ∀ p ∈ ledgerOf (isDuplicateComment nfc st username commenter comment now).2 username,
            ∀ q ∈ (sortDesc (purgeOld (recordedLedger nfc (ledgerOf st username) commenter
                comment now) now)).drop 500, q.2 ≤ p.2) := by
  have hsnd := isDuplicateComment_record_snd nfc st username commenter comment now h
  have hled : ledgerOf (isDuplicateComment nfc st username commenter comment now).2 username
      = cleanupOldComments
          (recordedLedger nfc (ledgerOf st username) commenter comment now) now := by
    rw [hsnd]
    exact ledgerOf_writeback st username _
  rw [hled]
  exact cleanupOldComments_props _ _

/-- Witness for C6: the first `hi` from `u1` on a fresh target records and
satisfies the invariants. -/
theorem ledger_bounds_c6_witness :
    (isDuplicateComment (fun s => s) initialState "s" "u1" "hi" 0).1 = false ∧
      ((∀ p ∈ ledgerOf (isDuplicateComment (fun s => s) initialState "s" "u1" "hi" 0).2 "s",
          ¬ (p.2 < (0 : ℚ) - 3600)) ∧
        (ledgerOf (isDuplicateComment (fun s => s) initialState "s" "u1" "hi" 0).2 "s").length
          ≤ 1000 ∧
        (1000 < (purgeOld (recordedLedger (fun s => s) (ledgerOf initialState "s") "u1" "hi" 0)
            0).length →
          (ledgerOf (isDuplicateComment (fun s => s) initialState "s" "u1" "hi" 0).2 "s").length
              = 500 ∧
            ∀ p ∈ ledgerOf (isDuplicateComment (fun s => s) initialState "s" "u1" "hi" 0).2 "s",
              ∀ q ∈ (sortDesc (purgeOld (recordedLedger (fun s => s) (ledgerOf initialState "s")
                  "u1" "hi" 0) 0)).drop 500, q.2 ≤ p.2)) :=
  ⟨by decide,
    ledger_bounds_c6 (fun s => s) initialState "s" "u1" "hi" 0 (by decide)⟩

/-! ## The emptiness filter and the frame effect of the deduplicator -/

/-- If stripping yields the empty list, every character was whitespace. -/
theorem pyStripList_eq_nil (l : List Char) (h : pyStripList l = []) :
    ∀ c ∈ l, pyIsSpace c = true := by
  intro c hc
  unfold pyStripList at h
  rw [List.reverse_eq_nil_iff, List.dropWhile_eq_nil_iff] at h
  have hall : ∀ x ∈ l.dropWhile pyIsSpace, pyIsSpace x = true := fun x hx =>
    h x (List.mem_reverse.mpr hx)
  have hsplit := List.takeWhile_append_dropWhile pyIsSpace l
  rw [← hsplit] at hc
  rcases List.mem_append.mp hc with htk | hdr
  · exact List.mem_takeWhile_imp htk
  · exact hall c hdr

/-- A text containing a character that is neither Python whitespace nor in
the emoji ranges is not emoji-only. -/
theorem not_emoji_only_of_substantive (text : String) (ch : Char)
    (hmem : ch ∈ text.data) (hsp : pyIsSpace ch = false) (hem : isEmojiChar ch = false) :
    isEmojiOnlyMessage text = false := by
  have hne : ∀ l : List Char, ch ∈ l → ¬ pyStripList l = [] := by
    intro l hl hcon
    have := pyStripList_eq_nil l hcon ch hl
    rw [hsp] at this
    exact Bool.false_ne_true this
  have hch4 : (!(ch = ' ' || ch = '\n' || ch = '\r' || ch = '\t')) = true := by
    simp only [Bool.not_eq_true', Bool.or_eq_false_iff, decide_eq_false_iff_not]
    refine ⟨⟨⟨?_, ?_⟩, ?_⟩, ?_⟩ <;>
      (intro hh; rw [hh] at hsp; exact absurd hsp (by decide))
  have hmemNoSpace : ch ∈ text.data.filter
      (fun c => !(c = ' ' || c = '\n' || c = '\r' || c = '\t')) :=
    List.mem_filter.mpr ⟨hmem, hch4⟩
  have hmemNoEmoji : ch ∈ (text.data.filter
      (fun c => !(c = ' ' || c = '\n' || c = '\r' || c = '\t'))).filter
        (fun c => !isEmojiChar c) :=
    List.mem_filter.mpr ⟨hmemNoSpace, by rw [hem]; rfl⟩
  have h1 : (pyStrip text).data.isEmpty = false := by
    cases hemp : (pyStrip text).data.isEmpty with
    | false => rfl
    | true => exact absurd (List.isEmpty_iff.mp hemp) (hne text.data hmem)
  have h2 : (text.data.filter
      (fun c => !(c = ' ' || c = '\n' || c = '\r' || c = '\t'))).isEmpty = false := by
    cases hemp : (text.data.filter
        (fun c => !(c = ' ' || c = '\n' || c = '\r' || c = '\t'))).isEmpty with
    | false => rfl
    | true =>
      rw [List.isEmpty_iff] at hemp
      rw [hemp] at hmemNoSpace
      exact absurd hmemNoSpace (List.not_mem_nil ch)
  have h3 : (pyStripList ((text.data.filter
      (fun c => !(c = ' ' || c = '\n' || c = '\r' || c = '\t'))).filter
        (fun c => !isEmojiChar c))).isEmpty = false := by
    cases hemp : (pyStripList ((text.data.filter
        (fun c => !(c = ' ' || c = '\n' || c = '\r' || c = '\t'))).filter
          (fun c => !isEmojiChar c))).isEmpty with
    | false => rfl
    | true => exact absurd (List.isEmpty_iff.mp hemp) (hne _ hmemNoEmoji)
  simp only [isEmojiOnlyMessage]
  rw [if_neg (by rw [h1]; exact Bool.false_ne_true),
    if_neg (by rw [h2]; exact Bool.false_ne_true)]
  exact h3

/-- A recorded (non-suppressed) substantive comment is forwarded. -/
theorem saveEvent_forwarded (nfc : String → String) (st : ScraperState)
    (u c m : String) (now : ℚ)
    (hfst : (isDuplicateComment nfc st u c m now).1 = false)
    (hemoji : isEmojiOnlyMessage m = false) :
    saveEvent nfc st u "comment" c m now =
      (fun st2 => { st2 with
          outputs := (u, false, cleanContent m) :: st2.outputs
          commentsCaptured := st2.commentsCaptured + 1 })
        (ensureSessionFile (isDuplicateComment nfc st u c m now).2 u) := by
  simp only [saveEvent, if_pos rfl]
  rw [show (isDuplicateComment nfc st u c m now) =
    (false, (isDuplicateComment nfc st u c m now).2) from Prod.ext hfst rfl]
  simp [hemoji]

/-- A recorded but emoji-only comment is filtered with duplicate accounting,
after the duplicate check has already recorded its keys. -/
theorem saveEvent_emoji_filtered (nfc : String → String) (st : ScraperState)
    (u c m : String) (now : ℚ)
    (hfst : (isDuplicateComment nfc st u c m now).1 = false)
    (hemoji : isEmojiOnlyMessage m = true) :
    saveEvent nfc st u "comment" c m now =
      { (isDuplicateComment nfc st u c m now).2 with
        duplicatesFiltered :=
          (isDuplicateComment nfc st u c m now).2.duplicatesFiltered + 1 } := by
  simp only [saveEvent, if_pos rfl]
  rw [show (isDuplicateComment nfc st u c m now) =
    (false, (isDuplicateComment nfc st u c m now).2) from Prod.ext hfst rfl]
  simp [hemoji]

/-- `_is_duplicate_comment` touches only the ledger map, never the counters,
the session files, or the outputs. -/
theorem isDuplicateComment_preserves (nfc : String → String) (st : ScraperState)
    (u c m : String) (now : ℚ) :
    (isDuplicateComment nfc st u c m now).2.commentsCaptured = st.commentsCaptured ∧
      (isDuplicateComment nfc st u c m now).2.duplicatesFiltered = st.duplicatesFiltered ∧
      (isDuplicateComment nfc st u c m now).2.outputs = st.outputs ∧
      (isDuplicateComment nfc st u c m now).2.sessionFiles = st.sessionFiles := by
  simp only [isDuplicateComment]
  split
  · simp
  · split
    · simp
    · split <;> simp

/-- C8 (amended).  For a comment whose text has at least one character that
is neither whitespace nor in the pictographic ranges: the deduplicator's
verdict is exactly the disjunction of the three duplicate strategies; a
suppressed event is filtered (one `duplicates_filtered`, no capture) and
leaves the target's ledger exactly unchanged; and a non-suppressed event is
forwarded and — provided the target's ledger held at most 998 entries —
afterwards maps both the exact and the normalized key to the event's
timestamp. -/
theorem dedup_frame_c8 (nfc : String → String) (st : ScraperState)
    (u c m : String) (now : ℚ) (ch : Char)
    (hmem : ch ∈ m.data) (hsp : pyIsSpace ch = false) (hem : isEmojiChar ch = false)
    (hlen : (ledgerOf st u).length ≤ 998) :
    ((isDuplicateComment nfc st u c m now).1 =
        (exactRepeatHit (ledgerOf st u) c m now ||
          nearDuplicateHit nfc (ledgerOf st u) c m now ||
          rapidFireHit (ledgerOf st u) c now)) ∧
      ((isDuplicateComment nfc st u c m now).1 = true →
        (saveEvent nfc st u "comment" c m now).duplicatesFiltered
            = st.duplicatesFiltered + 1 ∧
          (saveEvent nfc st u "comment" c m now).commentsCaptured = st.commentsCaptured ∧
          ledgerOf (saveEvent nfc st u "comment" c m now) u = ledgerOf st u) ∧
      ((isDuplicateComment nfc st u c m now).1 = false →
        (saveEvent nfc st u "comment" c m now).commentsCaptured
            = st.commentsCaptured + 1 ∧
          (saveEvent nfc st u "comment" c m now).duplicatesFiltered
            = st.duplicatesFiltered ∧
          alookup (exactHash c m)
            (ledgerOf (saveEvent nfc st u "comment" c m now) u) = some now ∧
          alookup (similarityHash nfc c m)
            (ledgerOf (saveEvent nfc st u "comment" c m now) u) = some now) := by
  have hemoji := not_emoji_only_of_substantive m ch hmem hsp hem
  refine ⟨isDuplicateComment_fst nfc st u c m now, ?_, ?_⟩
  · intro hsup
    rw [saveEvent_suppressed nfc st u c m now hsup]
    exact ⟨rfl, rfl, rfl⟩
  · intro hrec
    rw [saveEvent_forwarded nfc st u c m now hrec hemoji]
    obtain ⟨hf1, hf2, hf3, _⟩ :=
      ensureSessionFile_fields (isDuplicateComment nfc st u c m now).2 u u
    obtain ⟨hp1, hp2, _, _⟩ := isDuplicateComment_preserves nfc st u c m now
    have hled : ledgerOf (ensureSessionFile (isDuplicateComment nfc st u c m now).2 u) u
        = cleanupOldComments
            (recordedLedger nfc (ledgerOf st u) c m now) now := by
      rw [ledgerOf, hf1, isDuplicateComment_record_snd nfc st u c m now hrec]
      exact ledgerOf_writeback st u _
    obtain ⟨ha1, ha2⟩ := alookup_after_record nfc (ledgerOf st u) c m now hlen
    refine ⟨?_, ?_, ?_, ?_⟩
    · simp only [hf2, hp1]
    · simp only [hf3, hp2]
    · show alookup (exactHash c m)
        (ledgerOf (ensureSessionFile (isDuplicateComment nfc st u c m now).2 u) u) = some now
      rw [hled]
      exact ha1
    · show alookup (similarityHash nfc c m)
        (ledgerOf (ensureSessionFile (isDuplicateComment nfc st u c m now).2 u) u) = some now
      rw [hled]
      exact ha2

/-- A reachable ledger with 1001 distinct keys all stamped at time 0 (for
example restored from a snapshot, or accumulated within one clock tick). -/
def wideLedger : Ledger :=
  (List.range 1001).map (fun i => ("z" ++ toString i, (0 : ℚ)))

/-- A scraper state whose target `s` carries `wideLedger`. -/
def wideState : ScraperState := ⟨[("s", wideLedger)], [], 0, 0, []⟩

/-- C8, counterexample to the claim as stated: on a target whose ledger
already holds 1001 entries at the event's own timestamp, the event `x` from
`u1` is not suppressed by any strategy, yet after the call the ledger does
NOT map its exact key to the timestamp — recording pushed the ledger to 1002
entries and the eviction to the 500 most recent (stable order, the new entry
last among the timestamp ties) dropped the fresh keys. -/
theorem dedup_frame_c8_counterexample :
    (isDuplicateComment (fun s => s) wideState "s" "u1" "x" 0).1 = false ∧
      (ledgerOf (isDuplicateComment (fun s => s) wideState "s" "u1" "x" 0).2 "s").length
        = 500 ∧
      alookup (exactHash "u1" "x")
        (ledgerOf (isDuplicateComment (fun s => s) wideState "s" "u1" "x" 0).2 "s")
        = none := by
  refine ⟨by decide, by decide, by decide⟩

/-- Witness for C8 (amended) at a concrete input: the letter `h` of `hi` is
substantive and the fresh target's ledger is small. -/
theorem dedup_frame_c8_witness :
    (('h' ∈ "hi".data ∧ pyIsSpace 'h' = false ∧ isEmojiChar 'h' = false) ∧
      (ledgerOf initialState "s").length ≤ 998) ∧
      (((isDuplicateComment (fun s => s) initialState "s" "u1" "hi" 0).1 =
          (exactRepeatHit (ledgerOf initialState "s") "u1" "hi" 0 ||
            nearDuplicateHit (fun s => s) (ledgerOf initialState "s") "u1" "hi" 0 ||
            rapidFireHit (ledgerOf initialState "s") "u1" 0)) ∧
        ((isDuplicateComment (fun s => s) initialState "s" "u1" "hi" 0).1 = true →
          (saveEvent (fun s => s) initialState "s" "comment" "u1" "hi" 0).duplicatesFiltered
              = initialState.duplicatesFiltered + 1 ∧
            (saveEvent (fun s => s) initialState "s" "comment" "u1" "hi" 0).commentsCaptured
              = initialState.commentsCaptured ∧
            ledgerOf (saveEvent (fun s => s) initialState "s" "comment" "u1" "hi" 0) "s"
              = ledgerOf initialState "s") ∧
        ((isDuplicateComment (fun s => s) initialState "s" "u1" "hi" 0).1 = false →
          (saveEvent (fun s => s) initialState "s" "comment" "u1" "hi" 0).commentsCaptured
              = initialState.commentsCaptured + 1 ∧
            (saveEvent (fun s => s) initialState "s" "comment" "u1" "hi" 0).duplicatesFiltered
              = initialState.duplicatesFiltered ∧
            alookup (exactHash "u1" "hi")
              (ledgerOf (saveEvent (fun s => s) initialState "s" "comment" "u1" "hi" 0) "s")
              = some 0 ∧
            alookup (similarityHash (fun s => s) "u1" "hi")
              (ledgerOf (saveEvent (fun s => s) initialState "s" "comment" "u1" "hi" 0) "s")
              = some 0)) :=
  ⟨⟨⟨by decide, by decide, by decide⟩, by decide⟩,
    dedup_frame_c8 (fun s => s) initialState "s" "u1" "hi" 0 'h'
      (by decide) (by decide) (by decide) (by decide)⟩

/-- C9, counterexample to the claim as stated: after a single connection
failure the loop sleeps the full jittered backoff delay — 30 seconds at
jitter 1 with the default configuration — in one uninterruptible
`asyncio.sleep` that never re-checks `self.running`, which exceeds the
10-second polling interval of the connected-state loop.  Shutdown latency is
therefore not bounded by one polling interval. -/
theorem shutdown_latency_c9_counterexample :
    monitorIterationSleeps defaultConfig 1 0 0 0 1 = [30] ∧
      ¬ ((30 : ℚ) ≤ connectedPollSleep) := by
  decide

/-- The full jittered backoff sleep is at most `1800 × 1.2 = 2160` seconds
with the default configuration. -/
theorem nextDelay_default_le (f : Nat) (j : ℚ) (hjhi : j ≤ 6/5) (hj0 : 0 ≤ j) :
    nextDelay defaultConfig f j ≤ 2160 := by
  have hbase : defaultConfig.baseDelay = 15 := rfl
  have hmax : defaultConfig.maxDelay = 1800 := rfl
  have hmul : defaultConfig.backoffMultiplier = 2 := rfl
  have h0 : (0 : ℚ) ≤ defaultConfig.baseDelay * defaultConfig.backoffMultiplier ^ f := by
    rw [hbase, hmul]
    positivity
  have hminhi : min (defaultConfig.baseDelay *
      defaultConfig.backoffMultiplier ^ f) defaultConfig.maxDelay ≤ 1800 := by
    rw [← hmax]
    exact min_le_right _ _
  have := mul_le_mul hminhi hjhi hj0 (by norm_num : (0 : ℚ) ≤ 1800)
  unfold nextDelay
  linarith

/-- C9 (amended).  The monitoring loop re-checks the shutdown flag only at
the top of an iteration, never inside a sleep, and a single iteration runs
its waiting-phase sleeps — the full jittered backoff sleep followed by the
rate-limit cooldown sleep — back to back with no flag check between them.
With the default configuration and a jitter factor in `[0.8, 1.2]` that
uninterrupted sleep chain totals at most `2160 + 300 = 2460` seconds (each
sleep individually at most 2160 s); so no sleep is capped to the 10-second
interval, and shutdown latency is bounded by the sleeps pending in the
current iteration, not by one polling interval; only while connected is the
flag polled every `connectedPollSleep = 10` seconds, and the exception path
sleeps `errorRetrySleep = 60` seconds. -/
theorem shutdown_latency_c9 (f r : Nat) (now lastSuccess j : ℚ)
    (hjlo : 4/5 ≤ j) (hjhi : j ≤ 6/5) :
    (monitorIterationSleeps defaultConfig f r now lastSuccess j).sum ≤ 2460 ∧
      (∀ d ∈ monitorIterationSleeps defaultConfig f r now lastSuccess j, d ≤ 2160) ∧
      connectedPollSleep = 10 ∧ errorRetrySleep = 60 := by
  have hj0 : (0 : ℚ) ≤ j := le_trans (by norm_num) hjlo
  have hnd : nextDelay defaultConfig f j ≤ 2160 := nextDelay_default_le f j hjhi hj0
  have hcd : min (defaultConfig.rateLimitCooldown - (now - lastSuccess)) 300 ≤ (300 : ℚ) :=
    min_le_right _ _
  refine ⟨?_, ?_, rfl, rfl⟩
  · simp only [monitorIterationSleeps]
    split
    · split
      · simp only [List.sum_append, List.sum_cons, List.sum_nil]
        linarith
      · simp only [List.append_nil, List.sum_cons, List.sum_nil]
        linarith
    · split
      · simp only [List.nil_append, List.sum_cons, List.sum_nil]
        linarith
      · simp only [List.append_nil, List.sum_nil]
        norm_num
  · intro d hd
    simp only [monitorIterationSleeps, List.mem_append] at hd
    rcases hd with hd | hd
    · split at hd
      · simp only [List.mem_singleton] at hd
        subst hd
        exact hnd
      · simp at hd
    · split at hd
      · simp only [List.mem_singleton] at hd
        subst hd
        linarith
      · simp at hd

/-- Witness for C9 (amended): one failure, jitter 1. -/
theorem shutdown_latency_c9_witness :
    ((4 : ℚ)/5 ≤ 1 ∧ (1 : ℚ) ≤ 6/5) ∧
      ((monitorIterationSleeps defaultConfig 1 0 0 0 1).sum ≤ 2460 ∧
        (∀ d ∈ monitorIterationSleeps defaultConfig 1 0 0 0 1, d ≤ 2160) ∧
        connectedPollSleep = 10 ∧ errorRetrySleep = 60) :=
  ⟨⟨by decide, by decide⟩,
    shutdown_latency_c9 1 0 0 0 1 (by decide) (by decide)⟩

/-- C10.  An emoji-only comment whose keys are not yet in the ledger (and
whose author is not rapid-fire flagged) is suppressed by the emptiness
filter — nothing written, `comments_captured` unchanged,
`duplicates_filtered` incremented — yet its exact and normalized keys ARE
recorded, because `_is_duplicate_comment` runs and records before the
emoji-only filter; consequently an identical emoji-only event within the
next 30 seconds is suppressed by the exact-repeat strategy. -/
theorem emoji_only_recorded_c10 (nfc : String → String) (st : ScraperState)
    (u a s : String) (t tn : ℚ)
    (hemoji : isEmojiOnlyMessage s = true)
    (hex : alookup (exactHash a s) (ledgerOf st u) = none)
    (hsim : alookup (similarityHash nfc a s) (ledgerOf st u) = none)
    (hrap : rapidFireHit (ledgerOf st u) a t = false)
    (hlen : (ledgerOf st u).length ≤ 998)
    (hwin : tn - t < 30) :
    (saveEvent nfc st u "comment" a s t).commentsCaptured = st.commentsCaptured ∧
      (saveEvent nfc st u "comment" a s t).duplicatesFiltered
        = st.duplicatesFiltered + 1 ∧
      (saveEvent nfc st u "comment" a s t).outputs = st.outputs ∧
      alookup (exactHash a s) (ledgerOf (saveEvent nfc st u "comment" a s t) u)
        = some t ∧
      alookup (similarityHash nfc a s) (ledgerOf (saveEvent nfc st u "comment" a s t) u)
        = some t ∧
      exactRepeatHit (ledgerOf (saveEvent nfc st u "comment" a s t) u) a s tn = true ∧
      (saveEvent nfc (saveEvent nfc st u "comment" a s t) u "comment" a s tn).duplicatesFiltered
        = st.duplicatesFiltered + 2 ∧
      (saveEvent nfc (saveEvent nfc st u "comment" a s t) u "comment" a s tn).commentsCaptured
        = st.commentsCaptured := by
  have hfst : (isDuplicateComment nfc st u a s t).1 = false := by
    rw [isDuplicateComment_fst]
    have h1 : exactRepeatHit (ledgerOf st u) a s t = false := by
      simp [exactRepeatHit, hex]
    have h2 : nearDuplicateHit nfc (ledgerOf st u) a s t = false := by
      simp [nearDuplicateHit, hsim]
    rw [h1, h2, hrap]
    rfl
  have hstep := saveEvent_emoji_filtered nfc st u a s t hfst hemoji
  obtain ⟨hp1, hp2, hp3, _⟩ := isDuplicateComment_preserves nfc st u a s t
  have hled : ledgerOf (saveEvent nfc st u "comment" a s t) u
      = cleanupOldComments (recordedLedger nfc (ledgerOf st u) a s t) t := by
    rw [hstep]
    show ledgerOf (isDuplicateComment nfc st u a s t).2 u = _
    rw [isDuplicateComment_record_snd nfc st u a s t hfst]
    exact ledgerOf_writeback st u _
  obtain ⟨ha1, ha2⟩ := alookup_after_record nfc (ledgerOf st u) a s t hlen
  have hlook1 : alookup (exactHash a s) (ledgerOf (saveEvent nfc st u "comment" a s t) u)
      = some t := by rw [hled]; exact ha1
  have hhit2 : exactRepeatHit (ledgerOf (saveEvent nfc st u "comment" a s t) u) a s tn
      = true := exactRepeatHit_of_lookup _ _ _ _ _ hlook1 hwin
  have hfst2 : (isDuplicateComment nfc (saveEvent nfc st u "comment" a s t) u a s tn).1
      = true := by
    rw [isDuplicateComment_fst, hhit2]
    simp
  have hstep2 := saveEvent_suppressed nfc (saveEvent nfc st u "comment" a s t) u a s tn hfst2
  refine ⟨?_, ?_, ?_, hlook1, by rw [hled]; exact ha2, hhit2, ?_, ?_⟩
  · rw [hstep]
    exact hp1
  · rw [hstep]
    simp only [hp2]
  · rw [hstep]
    exact hp3
  · rw [hstep2, hstep]
    simp only [hp2]
  · rw [hstep2, hstep]
    exact hp1

/-- Witness for C10: the emoji-only comment `🔥🔥🔥` from `u1` on a fresh
target at `t = 0`, repeated at `t = 10`. -/
theorem emoji_only_recorded_c10_witness :
    (isEmojiOnlyMessage "🔥🔥🔥" = true ∧
      alookup (exactHash "u1" "🔥🔥🔥") (ledgerOf initialState "s") = none ∧
      alookup (similarityHash (fun s => s) "u1" "🔥🔥🔥") (ledgerOf initialState "s") = none ∧
      rapidFireHit (ledgerOf initialState "s") "u1" 0 = false ∧
      (ledgerOf initialState "s").length ≤ 998 ∧ (10 : ℚ) - 0 < 30) ∧
      ((saveEvent (fun s => s) initialState "s" "comment" "u1" "🔥🔥🔥" 0).commentsCaptured
          = initialState.commentsCaptured ∧
        (saveEvent (fun s => s) initialState "s" "comment" "u1" "🔥🔥🔥" 0).duplicatesFiltered
          = initialState.duplicatesFiltered + 1 ∧
        (saveEvent (fun s => s) initialState "s" "comment" "u1" "🔥🔥🔥" 0).outputs
          = initialState.outputs ∧
        alookup (exactHash "u1" "🔥🔥🔥")
          (ledgerOf (saveEvent (fun s => s) initialState "s" "comment" "u1" "🔥🔥🔥" 0) "s")
          = some 0 ∧
        alookup (similarityHash (fun s => s) "u1" "🔥🔥🔥")
          (ledgerOf (saveEvent (fun s => s) initialState "s" "comment" "u1" "🔥🔥🔥" 0) "s")
          = some 0 ∧
        exactRepeatHit
          (ledgerOf (saveEvent (fun s => s) initialState "s" "comment" "u1" "🔥🔥🔥" 0) "s")
          "u1" "🔥🔥🔥" 10 = true ∧
        (saveEvent (fun s => s) (saveEvent (fun s => s) initialState "s" "comment" "u1" "🔥🔥🔥" 0)
            "s" "comment" "u1" "🔥🔥🔥" 10).duplicatesFiltered
          = initialState.duplicatesFiltered + 2 ∧
        (saveEvent (fun s => s) (saveEvent (fun s => s) initialState "s" "comment" "u1" "🔥🔥🔥" 0)
            "s" "comment" "u1" "🔥🔥🔥" 10).commentsCaptured
          = initialState.commentsCaptured) :=
  ⟨⟨by decide, by decide, by decide, by decide, by decide, by decide⟩,
    emoji_only_recorded_c10 (fun s => s) initialState "s" "u1" "🔥🔥🔥" 0 10
      (by decide) (by decide) (by decide) (by decide) (by decide) (by decide)⟩

end TikTokScraper
